import Mathlib

/-!
Shallow embedding of the Task Manager service: the `Database` class
(src/API_DOCUMENTATION.md, embedded source after the documentation text),
the express router for `/api/tasks` and its validation chains
(src/src/tests/tasks.test.js, embedded source after the tests).

Conventions of the embedding:
  - JSON values are the inductive `Json`; a response body is the record
    `Response`, whose `Option` fields record which keys the JS object has.
  - A request body is `Payload`: each recognized field is an `Option String`
    (`none` = the key is absent / `undefined` in JS).
  - SQLite is modelled by `DB`: the rows in insertion (rowid) order plus the
    AUTOINCREMENT counter `nextId`; `CURRENT_TIMESTAMP` is an explicit `now`
    argument of type `Nat`.
  - The express-validator `trim()` sanitizer mutates `req.body.title` before
    the handler reads it, so the routes first apply `sanitize`.
-/

namespace TaskManager

/-- JSON values, enough for the bodies this API produces. -/
inductive Json where
  | null
  | str (s : String)
  | num (n : Nat)
  | bool (b : Bool)
  | arr (xs : List Json)
  | obj (kvs : List (String × Json))

/-- One entry of the express-validator errors array: the offending field
and its message (the other entries of the JS object carry no logic). -/
structure FieldError where
  path : String
  msg : String
deriving DecidableEq

/-- A task row as stored (column order of SELECT *: id, title, description,
status, due_date, created_at, updated_at). `description` is `none` when the
column is NULL. Timestamps are abstract clock values. -/
structure Task where
  id : Nat
  title : String
  description : Option String
  status : String
  due_date : String
  created_at : Nat
  updated_at : Nat
deriving DecidableEq

/-- The request body restricted to the four recognized fields; `none` means
the key is absent from the JSON body (`undefined` in JS). -/
structure Payload where
  title : Option String := none
  description : Option String := none
  status : Option String := none
  due_date : Option String := none
deriving DecidableEq

/-- The SQLite store: rows in insertion (rowid) order and the AUTOINCREMENT
counter for the next id (starts at 1, never decreases). -/
structure DB where
  rows : List Task
  nextId : Nat
deriving DecidableEq

def DB.empty : DB := ⟨[], 1⟩

/-- An HTTP response: status code plus the JSON body, with each optional
key of the body an `Option` field (`none` = the key is absent). -/
structure Response where
  status : Nat
  success : Bool
  data : Option Json := none
  count : Option Nat := none
  message : Option String := none
  error : Option String := none
  details : Option (List FieldError) := none

/-- The four-value status domain (validation chains and the CHECK constraint
of the tasks table). -/
def statusList : List String := ["pending", "in_progress", "completed", "cancelled"]

/-- Two-digit slot read as a number. -/
def twoDigits (a b : Char) : Nat := 10 * (a.toNat - 48) + (b.toNat - 48)

/-- Time part of an ISO 8601 string after the `T`: HH:MM:SS, optional
milliseconds, optional Z. Models the time grammar accepted by the external
validator.js `isISO8601` check (library code, not part of this repository). -/
def isoTimeOk : List Char → Bool
  | [h1, h2, ':', m1, m2, ':', s1, s2] =>
      [h1, h2, m1, m2, s1, s2].all Char.isDigit &&
      twoDigits h1 h2 < 24 && twoDigits m1 m2 < 60 && twoDigits s1 s2 < 60
  | h1 :: h2 :: ':' :: m1 :: m2 :: ':' :: s1 :: s2 :: '.' :: a :: b :: c :: rest =>
      [h1, h2, m1, m2, s1, s2, a, b, c].all Char.isDigit &&
      twoDigits h1 h2 < 24 && twoDigits m1 m2 < 60 && twoDigits s1 s2 < 60 &&
      (rest = [] || rest = ['Z'])
  | h1 :: h2 :: ':' :: m1 :: m2 :: ':' :: s1 :: s2 :: rest =>
      [h1, h2, m1, m2, s1, s2].all Char.isDigit &&
      twoDigits h1 h2 < 24 && twoDigits m1 m2 < 60 && twoDigits s1 s2 < 60 &&
      rest = ['Z']
  | _ => false

/-- Calendar date part YYYY-MM-DD. -/
def isoDateOk (y1 y2 y3 y4 m1 m2 d1 d2 : Char) : Bool :=
  [y1, y2, y3, y4, m1, m2, d1, d2].all Char.isDigit &&
  1 ≤ twoDigits m1 m2 && twoDigits m1 m2 ≤ 12 &&
  1 ≤ twoDigits d1 d2 && twoDigits d1 d2 ≤ 31

/-- Modelled from the spec: the `isISO8601` validator of the external
validator.js library (not part of this repository); the spec only requires
"any ISO-8601-parseable value accepted", so this accepts a calendar date,
optionally followed by `T` and a time of day. No claim depends on the exact
date grammar, only on validity being a decidable property of the string. -/
def isISO8601 (s : String) : Bool :=
  match s.toList with
  | [y1, y2, y3, y4, '-', m1, m2, '-', d1, d2] =>
      isoDateOk y1 y2 y3 y4 m1 m2 d1 d2
  | y1 :: y2 :: y3 :: y4 :: '-' :: m1 :: m2 :: '-' :: d1 :: d2 :: 'T' :: rest =>
      isoDateOk y1 y2 y3 y4 m1 m2 d1 d2 && isoTimeOk rest
  | _ => false

/-- JS `String.prototype.trim`: drop whitespace from both ends. -/
def jsTrim (s : String) : String :=
  ⟨((s.toList.dropWhile Char.isWhitespace).reverse.dropWhile Char.isWhitespace).reverse⟩

/-- The `trim()` sanitizer in the `title` chain of both `validateTask` and
`validateTaskUpdate` rewrites `req.body.title` in place before the handler
reads the body. -/
def sanitize (p : Payload) : Payload :=
  { p with title := p.title.map jsTrim }

/-- Decimal parse of a digit string; models both the integer parse behind
the `isInt` check of the external validator.js library and the numeric
affinity SQLite applies when a string id parameter meets the INTEGER id
column (a non-numeric string matches no row). -/
def parseNat? (s : String) : Option Nat :=
  match s.toList with
  | [] => none
  | cs =>
      if cs.all Char.isDigit then
        some (cs.foldl (fun a c => 10 * a + (c.toNat - 48)) 0)
      else none

/-- Lexicographic byte-order comparison of two strings (the BINARY collation
SQLite applies to the TEXT-affinity due_date values in ORDER BY). -/
def lexLt (a b : String) : Bool :=
  go a.toList b.toList
where
  go : List Char → List Char → Bool
    | _, [] => false
    | [], _ :: _ => true
    | x :: xs, y :: ys => if x < y then true else if y < x then false else go xs ys

def titleMsg : String := "Title is required and must be between 1 and 255 characters"
def titleMsgUpd : String := "Title must be between 1 and 255 characters"
def descMsg : String := "Description must not exceed 1000 characters"
def statusMsg : String := "Status must be one of: pending, in_progress, completed, cancelled"
def dueMsg : String := "Due date must be a valid ISO 8601 date"
def idMsg : String := "ID must be a positive integer"

/-- The `validateTask` chain (create mode), applied to the sanitized body:
title required with trimmed length 1..255, description optional with length
at most 1000, status required from `statusList`, due_date required ISO 8601.
A missing required field fails its validator (express-validator coerces
`undefined` to the empty string). Errors appear in chain order. -/
def validateTask (p : Payload) : List FieldError :=
  (match p.title with
   | none => [⟨"title", titleMsg⟩]
   | some t => if 1 ≤ t.length ∧ t.length ≤ 255 then [] else [⟨"title", titleMsg⟩]) ++
  (match p.description with
   | none => []
   | some d => if d.length ≤ 1000 then [] else [⟨"description", descMsg⟩]) ++
  (match p.status with
   | none => [⟨"status", statusMsg⟩]
   | some s => if s ∈ statusList then [] else [⟨"status", statusMsg⟩]) ++
  (match p.due_date with
   | none => [⟨"due_date", dueMsg⟩]
   | some d => if isISO8601 d then [] else [⟨"due_date", dueMsg⟩])

/-- The `validateTaskUpdate` chain (update mode): the same per-field rules,
every field `optional()` (checked only when the key is present). -/
def validateTaskUpdate (p : Payload) : List FieldError :=
  (match p.title with
   | none => []
   | some t => if 1 ≤ t.length ∧ t.length ≤ 255 then [] else [⟨"title", titleMsgUpd⟩]) ++
  (match p.description with
   | none => []
   | some d => if d.length ≤ 1000 then [] else [⟨"description", descMsg⟩]) ++
  (match p.status with
   | none => []
   | some s => if s ∈ statusList then [] else [⟨"status", statusMsg⟩]) ++
  (match p.due_date with
   | none => []
   | some d => if isISO8601 d then [] else [⟨"due_date", dueMsg⟩])

/-- The `validateId` chain: `param('id').isInt(min 1)` — the path segment is
a decimal integer of at least 1. -/
def validateId (s : String) : Bool :=
  match parseNat? s with
  | some n => 1 ≤ n
  | none => false

/-- JSON value of a nullable string column. -/
def optJson : Option String → Json
  | none => Json.null
  | some s => Json.str s

/-- The store-level errors the embedded `Database` class can reject with:
`this.changes === 0` (Error "Task not found"), a constraint violation
(NOT NULL or the status CHECK), and the `updateTask` guard
(Error "No valid fields to update"). -/
inductive StoreErr where
  | taskMissing
  | constraintViolation
  | emptyUpdate
deriving DecidableEq

/-- The `error.message` the route handlers see for each store rejection. -/
def StoreErr.msg : StoreErr → String
  | .taskMissing => "Task not found"
  | .constraintViolation => "SQLITE_CONSTRAINT: CHECK constraint failed: tasks"
  | .emptyUpdate => "No valid fields to update"

namespace Database

/-- `Database.createTask`: INSERT the four fields (`description` stored as
NULL when `undefined`), timestamps defaulted to CURRENT_TIMESTAMP; the CHECK
constraint rejects any status outside `statusList`, NOT NULL rejects a
missing title, status or due_date. Resolves with the JS object
`\x7bid: lastID, title, description, status, due_date\x7d`. -/
def createTask (db : DB) (now : Nat) (t : Payload) : Except StoreErr (Json × DB) :=
  match t.title, t.status, t.due_date with
  | some title, some status, some due =>
      if status ∈ statusList then
        Except.ok
          (Json.obj [("id", Json.num db.nextId), ("title", Json.str title),
            ("description", optJson t.description), ("status", Json.str status),
            ("due_date", Json.str due)],
           ⟨db.rows ++ [⟨db.nextId, title, t.description, status, due, now, now⟩],
            db.nextId + 1⟩)
      else Except.error StoreErr.constraintViolation
  | _, _, _ => Except.error StoreErr.constraintViolation

/-- `Database.getTaskById`: SELECT * WHERE id = ?; the id arrives as the raw
path string and SQLite numeric affinity matches it against the INTEGER
column (a non-numeric string matches no row). -/
def getTaskById (db : DB) (idStr : String) : Option Task :=
  match parseNat? idStr with
  | some n => db.rows.find? (fun t => t.id == n)
  | none => none

/-- Stable insertion by `due_date` (string comparison, as SQLite compares the
TEXT-affinity DATETIME values): the new row goes after every row whose
due_date is strictly smaller and before the rest. -/
def insertByDue (t : Task) : List Task → List Task
  | [] => [t]
  | x :: xs =>
      if lexLt x.due_date t.due_date then x :: insertByDue t xs
      else t :: x :: xs

/-- ORDER BY due_date ASC over the rows in rowid order; ties keep rowid
(insertion) order, as the store scans the table in rowid order. -/
def sortByDue : List Task → List Task
  | [] => []
  | x :: xs => insertByDue x (sortByDue xs)

/-- `Database.getAllTasks`: SELECT * FROM tasks ORDER BY due_date ASC. -/
def getAllTasks (db : DB) : List Task :=
  sortByDue db.rows

/-- `Database.updateTaskStatus`: UPDATE status and updated_at WHERE id = ?;
zero changed rows rejects with "Task not found", the CHECK constraint
rejects a bad status when a row matches. Resolves with
`\x7bid, status, updated: true\x7d` where `id` is the raw path string. -/
def updateTaskStatus (db : DB) (now : Nat) (idStr status : String) :
    Except StoreErr (Json × DB) :=
  match parseNat? idStr with
  | none => Except.error StoreErr.taskMissing
  | some n =>
      if db.rows.any (fun t => t.id == n) then
        if status ∈ statusList then
          Except.ok
            (Json.obj [("id", Json.str idStr), ("status", Json.str status),
              ("updated", Json.bool true)],
             ⟨db.rows.map (fun t =>
                if t.id = n then { t with status := status, updated_at := now } else t),
              db.nextId⟩)
        else Except.error StoreErr.constraintViolation
      else Except.error StoreErr.taskMissing

/-- The fields of the `updates` object in the order the PUT handler inserts
them (`allowedFields` order), as key-value pairs for the resolve object. -/
def updatesJson (u : Payload) : List (String × Json) :=
  (match u.title with | none => [] | some t => [("title", Json.str t)]) ++
  (match u.description with | none => [] | some d => [("description", Json.str d)]) ++
  (match u.status with | none => [] | some s => [("status", Json.str s)]) ++
  (match u.due_date with | none => [] | some d => [("due_date", Json.str d)])

/-- Whether the `updates` object has no recognized field. -/
def noUpdates (u : Payload) : Bool :=
  u.title.isNone && u.description.isNone && u.status.isNone && u.due_date.isNone

/-- Merge the present fields of `updates` into a row, refreshing
updated_at (the SET clause built by `Database.updateTask`). -/
def applyUpdates (u : Payload) (now : Nat) (t : Task) : Task :=
  { t with
    title := u.title.getD t.title,
    description := (match u.description with | none => t.description | some d => some d),
    status := u.status.getD t.status,
    due_date := u.due_date.getD t.due_date,
    updated_at := now }

/-- `Database.updateTask`: build SET from the recognized keys of `updates`
(rejecting an empty set), UPDATE WHERE id = ?; zero changed rows rejects with
"Task not found"; the CHECK constraint rejects a bad status when a row
matches. Resolves with `\x7bid, ...updates, updated: true\x7d` where `id` is
the raw path string. -/
def updateTask (db : DB) (now : Nat) (idStr : String) (u : Payload) :
    Except StoreErr (Json × DB) :=
  if noUpdates u then Except.error StoreErr.emptyUpdate
  else
    match parseNat? idStr with
    | none => Except.error StoreErr.taskMissing
    | some n =>
        if db.rows.any (fun t => t.id == n) then
          if (match u.status with | none => true | some s => decide (s ∈ statusList)) then
            Except.ok
              (Json.obj (("id", Json.str idStr) :: updatesJson u ++
                 [("updated", Json.bool true)]),
               ⟨db.rows.map (fun t => if t.id = n then applyUpdates u now t else t),
                db.nextId⟩)
          else Except.error StoreErr.constraintViolation
        else Except.error StoreErr.taskMissing

/-- `Database.deleteTask`: DELETE WHERE id = ?; zero changed rows rejects
with "Task not found". -/
def deleteTask (db : DB) (idStr : String) : Except StoreErr DB :=
  match parseNat? idStr with
  | none => Except.error StoreErr.taskMissing
  | some n =>
      if db.rows.any (fun t => t.id == n) then
        Except.ok ⟨db.rows.filter (fun t => ¬ t.id = n), db.nextId⟩
      else Except.error StoreErr.taskMissing

end Database

/-- A task row as `res.json` serializes it (SELECT * column order). -/
def taskJson (t : Task) : Json :=
  Json.obj [("id", Json.num t.id), ("title", Json.str t.title),
    ("description", optJson t.description), ("status", Json.str t.status),
    ("due_date", Json.str t.due_date), ("created_at", Json.num t.created_at),
    ("updated_at", Json.num t.updated_at)]

/-- The 400 body `handleValidationErrors` sends. -/
def vFail (errs : List FieldError) : Response :=
  { status := 400, success := false, error := some "Validation failed",
    details := some errs }

/-- The 404 body every route sends for a missing task. -/
def notFoundResp : Response :=
  { status := 404, success := false, error := some "Task not found" }

/-- The bespoke 400 body of PATCH /:id/status when the body has no valid
status. -/
def statusRequiredResp : Response :=
  { status := 400, success := false,
    error := some "Valid status is required (pending, in_progress, completed, cancelled)" }

/-- The bespoke 400 body of PUT /:id when no recognized field is present. -/
def noFieldsResp : Response :=
  { status := 400, success := false,
    error := some "No valid fields provided for update" }

/-- A 500 body: operation-specific summary plus the error message. -/
def storageResp (summary : String) (e : StoreErr) : Response :=
  { status := 500, success := false, error := some summary,
    message := some (StoreErr.msg e) }

/-- POST /api/tasks: validateTask (sanitizing the title), then
`Database.createTask` on the destructured body; 201 with the resolve object
on success. -/
def postTask (db : DB) (now : Nat) (body_ : Payload) : Response × DB :=
  let p := sanitize body_
  if validateTask p = [] then
    match Database.createTask db now p with
    | Except.ok (data, db') =>
        ({ status := 201, success := true, data := some data,
           message := some "Task created successfully" }, db')
    | Except.error e => (storageResp "Failed to create task" e, db)
  else (vFail (validateTask p), db)

/-- GET /api/tasks: all rows ordered by due date, with a count. -/
def getTasks (db : DB) : Response × DB :=
  let ts := Database.getAllTasks db
  ({ status := 200, success := true, data := some (Json.arr (ts.map taskJson)),
     count := some ts.length }, db)

/-- GET /api/tasks/:id: validateId, then `Database.getTaskById`; 200 with the
row or 404. -/
def getTask (db : DB) (idStr : String) : Response × DB :=
  if validateId idStr then
    match Database.getTaskById db idStr with
    | some t => ({ status := 200, success := true, data := some (taskJson t) }, db)
    | none => (notFoundResp, db)
  else (vFail [⟨"id", idMsg⟩], db)

/-- PUT /api/tasks/:id: validateId then validateTaskUpdate (sanitizing the
title); the handler collects the present recognized fields, rejects an empty
set with the bespoke 400, then calls `Database.updateTask`; the catch maps
the "Task not found" rejection to 404 and any other rejection to 500. -/
def putTask (db : DB) (now : Nat) (idStr : String) (body_ : Payload) : Response × DB :=
  let p := sanitize body_
  let errs := (if validateId idStr then [] else [⟨"id", idMsg⟩]) ++ validateTaskUpdate p
  if errs = [] then
    if Database.noUpdates p then (noFieldsResp, db)
    else
      match Database.updateTask db now idStr p with
      | Except.ok (data, db') =>
          ({ status := 200, success := true, data := some data,
             message := some "Task updated successfully" }, db')
      | Except.error StoreErr.taskMissing => (notFoundResp, db)
      | Except.error e => (storageResp "Failed to update task" e, db)
  else (vFail errs, db)

/-- PATCH /api/tasks/:id/status: validateId only; the handler checks the
body status inline (falsy or outside the four values gets the bespoke 400),
then calls `Database.updateTaskStatus`; the catch maps "Task not found" to
404 and any other rejection to 500. -/
def patchStatus (db : DB) (now : Nat) (idStr : String) (body_ : Payload) :
    Response × DB :=
  if validateId idStr then
    match body_.status with
    | some s =>
        if s ∈ statusList then
          match Database.updateTaskStatus db now idStr s with
          | Except.ok (data, db') =>
              ({ status := 200, success := true, data := some data,
                 message := some "Task status updated successfully" }, db')
          | Except.error StoreErr.taskMissing => (notFoundResp, db)
          | Except.error e => (storageResp "Failed to update task status" e, db)
        else (statusRequiredResp, db)
    | none => (statusRequiredResp, db)
  else (vFail [⟨"id", idMsg⟩], db)

/-- DELETE /api/tasks/:id: validateId, then `Database.deleteTask`; 200 with a
message on success, 404 for "Task not found", 500 otherwise. -/
def deleteTaskRoute (db : DB) (idStr : String) : Response × DB :=
  if validateId idStr then
    match Database.deleteTask db idStr with
    | Except.ok db' =>
        ({ status := 200, success := true,
           message := some "Task deleted successfully" }, db')
    | Except.error StoreErr.taskMissing => (notFoundResp, db)
    | Except.error e => (storageResp "Failed to delete task" e, db)
  else (vFail [⟨"id", idMsg⟩], db)

/-- Keys of a JSON object (used to tell two object shapes apart). -/
def Json.keys : Json → List String
  | .obj kvs => kvs.map Prod.fst
  | _ => []

/-- The due-date ordering the listing is sorted by: byte-order comparison of
the stored strings, as ≤ on the character lists. -/
def dueLe (a b : Task) : Prop :=
  a.due_date.toList ≤ b.due_date.toList

/-- The response shapes the six operations can produce: success,
`handleValidationErrors` 400, not-found 404, storage 500 with summary and
diagnostic message, plus the two bespoke 400 bodies of the status-only
route and the full-update route. -/
def goodShape (r : Response) : Prop :=
  (r.success = true ∧ r.error = none ∧ r.details = none) ∨
  (∃ l, r = vFail l) ∨
  r = notFoundResp ∨
  (r.status = 500 ∧ r.success = false ∧ r.details = none ∧ r.data = none ∧
    r.count = none ∧ (∃ e, r.error = some e) ∧ ∃ m, r.message = some m) ∨
  r = statusRequiredResp ∨
  r = noFieldsResp

/-- One API request against the store: the state moves to the second
component of the invoked route. -/
inductive Step : DB → DB → Prop where
  | post (db : DB) (now : Nat) (p : Payload) : Step db (postTask db now p).2
  | put (db : DB) (now : Nat) (idStr : String) (p : Payload) :
      Step db (putTask db now idStr p).2
  | patch (db : DB) (now : Nat) (idStr : String) (p : Payload) :
      Step db (patchStatus db now idStr p).2
  | del (db : DB) (idStr : String) : Step db (deleteTaskRoute db idStr).2
  | getOne (db : DB) (idStr : String) : Step db (getTask db idStr).2
  | getAll (db : DB) : Step db (getTasks db).2

/-- Any finite sequence of API requests. -/
inductive Steps : DB → DB → Prop where
  | refl (db : DB) : Steps db db
  | tail {a b c : DB} : Steps a b → Step b c → Steps a c

/-- A store state reachable from the fresh store by API requests. -/
def Reach (db : DB) : Prop :=
  Steps DB.empty db

/-- The store invariant: the AUTOINCREMENT counter is positive, ids are
pairwise distinct, and every row has a status in the four-value domain and
an id in 1..nextId-1. -/
def Inv (db : DB) : Prop :=
  1 ≤ db.nextId ∧ (db.rows.map Task.id).Nodup ∧
  ∀ t ∈ db.rows, t.status ∈ statusList ∧ 1 ≤ t.id ∧ t.id < db.nextId

/-! ## Helper lemmas -/

@[simp] lemma sanitize_title (p : Payload) : (sanitize p).title = p.title.map jsTrim := rfl

@[simp] lemma sanitize_description (p : Payload) : (sanitize p).description = p.description := rfl

@[simp] lemma sanitize_status (p : Payload) : (sanitize p).status = p.status := rfl

@[simp] lemma sanitize_due (p : Payload) : (sanitize p).due_date = p.due_date := rfl

lemma find?_append_right {α : Type} {p : α → Bool} {l₁ l₂ : List α}
    (h : ∀ x ∈ l₁, p x = false) : (l₁ ++ l₂).find? p = l₂.find? p := by
  induction l₁ with
  | nil => rfl
  | cons a l ih =>
      rw [List.cons_append, List.find?_cons_of_neg, ih]
      · exact fun x hx => h x (List.mem_cons_of_mem _ hx)
      · simp [h a (List.mem_cons_self a l)]

lemma create_fields_of_valid {p : Payload} (h : validateTask p = []) :
    ∃ t s d, p.title = some t ∧ p.status = some s ∧ p.due_date = some d ∧
      s ∈ statusList ∧ 1 ≤ t.length ∧ t.length ≤ 255 ∧ isISO8601 d = true := by
  rcases p with ⟨t, ds, s, dd⟩
  cases t <;> cases ds <;> cases s <;> cases dd <;>
    simp only [validateTask] at h <;> (try split_ifs at h) <;> simp_all

lemma desc_short_of_valid {p : Payload} (h : validateTask p = []) :
    ∀ d, p.description = some d → d.length ≤ 1000 := by
  intro d hd
  rcases p with ⟨t, ds, s, dd⟩
  cases hd
  by_contra hlen
  cases t <;> cases s <;> cases dd <;>
    simp only [validateTask] at h <;> (try split_ifs at h) <;> simp_all

lemma update_status_of_valid {p : Payload} (h : validateTaskUpdate p = []) :
    ∀ s, p.status = some s → s ∈ statusList := by
  intro s hs
  rcases p with ⟨t, ds, s', dd⟩
  cases hs
  by_contra hmem
  cases t <;> cases ds <;> cases dd <;>
    simp only [validateTaskUpdate] at h <;> (try split_ifs at h) <;> simp_all

lemma validateTask_ne_of_bad_status {p : Payload} {s : String}
    (hs : p.status = some s) (hmem : s ∉ statusList) : validateTask p ≠ [] := by
  rcases p with ⟨t, ds, s', dd⟩
  cases hs
  intro h
  cases t <;> cases ds <;> cases dd <;>
    simp only [validateTask] at h <;> (try split_ifs at h) <;> simp_all

lemma validateTaskUpdate_ne_of_bad_status {p : Payload} {s : String}
    (hs : p.status = some s) (hmem : s ∉ statusList) : validateTaskUpdate p ≠ [] := by
  rcases p with ⟨t, ds, s', dd⟩
  cases hs
  intro h
  cases t <;> cases ds <;> cases dd <;>
    simp only [validateTaskUpdate] at h <;> (try split_ifs at h) <;> simp_all


lemma lexLt_go_iff : ∀ (as bs : List Char), lexLt.go as bs = true ↔ List.Lex (· < ·) as bs := by
  intro as
  induction as with
  | nil =>
      intro bs
      cases bs with
      | nil => simp [lexLt.go]
      | cons b bs => simp [lexLt.go]; exact List.Lex.nil
  | cons a as ih =>
      intro bs
      cases bs with
      | nil => simp [lexLt.go]
      | cons b bs =>
          simp only [lexLt.go]
          rcases lt_trichotomy a b with h | h | h
          · rw [if_pos h]
            exact iff_of_true rfl (List.Lex.rel h)
          · subst h
            rw [if_neg (lt_irrefl a), if_neg (lt_irrefl a)]
            rw [ih bs]
            constructor
            · exact List.Lex.cons
            · intro hl
              cases hl with
              | cons h => exact h
              | rel h => exact absurd h (lt_irrefl a)
          · rw [if_neg (not_lt_of_gt h), if_pos h]
            refine iff_of_false (by simp) ?_
            intro hl
            cases hl with
            | cons h2 => exact absurd h (lt_irrefl a)
            | rel h2 => exact absurd h (not_lt_of_gt h2)

lemma lexLt_iff (a b : String) : lexLt a b = true ↔ a.toList < b.toList := by
  rw [lexLt, lexLt_go_iff]
  rfl

lemma lexLt_false_iff (a b : String) : lexLt a b = false ↔ b.toList ≤ a.toList := by
  rw [← Bool.not_eq_true, lexLt_iff]
  exact not_lt


lemma insertByDue_perm (t : Task) (l : List Task) :
    List.Perm (Database.insertByDue t l) (t :: l) := by
  induction l with
  | nil => rfl
  | cons x xs ih =>
      rw [Database.insertByDue]
      split
      · exact ((ih.cons x).trans (List.Perm.swap t x xs))
      · rfl

lemma sortByDue_perm (l : List Task) : List.Perm (Database.sortByDue l) l := by
  induction l with
  | nil => rfl
  | cons x xs ih =>
      rw [Database.sortByDue]
      exact (insertByDue_perm x (Database.sortByDue xs)).trans (ih.cons x)

lemma insertByDue_pairwise {t : Task} {l : List Task}
    (h : List.Pairwise dueLe l) : List.Pairwise dueLe (Database.insertByDue t l) := by
  induction l with
  | nil => simp [Database.insertByDue, List.pairwise_cons]
  | cons x xs ih =>
      rw [Database.insertByDue]
      rcases List.pairwise_cons.mp h with ⟨hx, hxs⟩
      split
      case isTrue hlt =>
        refine List.pairwise_cons.mpr ⟨?_, ih hxs⟩
        intro y hy
        rcases List.mem_cons.mp ((insertByDue_perm t xs).mem_iff.mp hy) with rfl | hy'
        · exact le_of_lt ((lexLt_iff _ _).mp hlt)
        · exact hx y hy'
      case isFalse hge =>
        refine List.pairwise_cons.mpr ⟨?_, h⟩
        intro y hy
        have hxt : dueLe t x := (lexLt_false_iff _ _).mp (by simpa using hge)
        rcases List.mem_cons.mp hy with rfl | hy'
        · exact hxt
        · exact le_trans hxt (hx y hy')

lemma sortByDue_pairwise (l : List Task) : List.Pairwise dueLe (Database.sortByDue l) := by
  induction l with
  | nil => exact List.Pairwise.nil
  | cons x xs ih => exact insertByDue_pairwise ih

lemma insertByDue_filter (t : Task) (l : List Task) (d : String) :
    (Database.insertByDue t l).filter (fun u => u.due_date == d) =
      if t.due_date = d then t :: l.filter (fun u => u.due_date == d)
      else l.filter (fun u => u.due_date == d) := by
  induction l with
  | nil =>
      by_cases hd : t.due_date = d <;>
        simp [Database.insertByDue, List.filter_cons, hd]
  | cons x xs ih =>
      rw [Database.insertByDue]
      split
      case isTrue hlt =>
        by_cases hd : t.due_date = d
        · have hxd : (x.due_date == d) = false := by
            have hlt' : x.due_date.toList < t.due_date.toList := (lexLt_iff _ _).mp hlt
            refine beq_eq_false_iff_ne.mpr ?_
            intro hxd
            rw [hxd, hd] at hlt'
            exact lt_irrefl _ hlt'
          rw [if_pos hd] at ih ⊢
          rw [List.filter_cons, List.filter_cons, hxd, ih]
          simp
        · rw [if_neg hd] at ih ⊢
          rw [List.filter_cons, List.filter_cons, ih]
      case isFalse hge =>
        by_cases hd : t.due_date = d
        · rw [if_pos hd, List.filter_cons,
            show (t.due_date == d) = true from beq_iff_eq.mpr hd]
          simp
        · rw [if_neg hd, List.filter_cons,
            show (t.due_date == d) = false from beq_eq_false_iff_ne.mpr hd]
          simp

lemma sortByDue_filter (l : List Task) (d : String) :
    (Database.sortByDue l).filter (fun u => u.due_date == d) =
      l.filter (fun u => u.due_date == d) := by
  induction l with
  | nil => rfl
  | cons x xs ih =>
      rw [Database.sortByDue, insertByDue_filter]
      by_cases hd : x.due_date = d
      · rw [if_pos hd, ih, List.filter_cons,
          show (x.due_date == d) = true from beq_iff_eq.mpr hd]
        simp
      · rw [if_neg hd, ih, List.filter_cons,
          show (x.due_date == d) = false from beq_eq_false_iff_ne.mpr hd]
        simp


/-! ## Claim theorems -/

/-- C6: list-all returns a successful 200 envelope whose data is every stored
record ordered by due_date ascending — a permutation of the stored rows,
pairwise sorted by due date, with ties kept in insertion order (the filter at
any due date equals the insertion-order filter) — together with a count, and
the empty store yields a successful empty sequence rather than an error. -/
theorem c6_list_all_sorted (db : DB) :
    (getTasks db).1.status = 200 ∧ (getTasks db).1.success = true ∧
    (getTasks db).1.error = none ∧ (getTasks db).2 = db ∧
    (getTasks db).1.data = some (Json.arr ((Database.getAllTasks db).map taskJson)) ∧
    (getTasks db).1.count = some (Database.getAllTasks db).length ∧
    List.Perm (Database.getAllTasks db) db.rows ∧
    List.Pairwise dueLe (Database.getAllTasks db) ∧
    (∀ d, (Database.getAllTasks db).filter (fun u => u.due_date == d) =
      db.rows.filter (fun u => u.due_date == d)) ∧
    getTasks DB.empty =
      ({ status := 200, success := true, data := some (Json.arr []),
         count := some 0 }, DB.empty) := by
  exact ⟨rfl, rfl, rfl, rfl, rfl, rfl, sortByDue_perm db.rows, sortByDue_pairwise db.rows,
    fun d => sortByDue_filter db.rows d, rfl⟩

lemma goodShape_success {r : Response} (h1 : r.success = true) (h2 : r.error = none)
    (h3 : r.details = none) : goodShape r := Or.inl ⟨h1, h2, h3⟩

lemma goodShape_vFail (l : List FieldError) : goodShape (vFail l) := Or.inr (Or.inl ⟨l, rfl⟩)

lemma goodShape_notFound : goodShape notFoundResp := Or.inr (Or.inr (Or.inl rfl))

lemma goodShape_storage (s : String) (e : StoreErr) : goodShape (storageResp s e) :=
  Or.inr (Or.inr (Or.inr (Or.inl ⟨rfl, rfl, rfl, rfl, rfl, ⟨s, rfl⟩, ⟨_, rfl⟩⟩)))

lemma goodShape_statusReq : goodShape statusRequiredResp :=
  Or.inr (Or.inr (Or.inr (Or.inr (Or.inl rfl))))

lemma goodShape_noFields : goodShape noFieldsResp :=
  Or.inr (Or.inr (Or.inr (Or.inr (Or.inr rfl))))

/-- C4 (amended): every response of the six operations has one of the
enumerated shapes: success (success true, no error, no details), the
`handleValidationErrors` validation-failure body, the not-found body, the
storage-failure body (500 with an error summary and a diagnostic message),
or one of the two bespoke 400 bodies (the status-only route's inline status
check and the full-update route's no-fields check). -/
theorem c4_response_shapes (db : DB) (now : Nat) (idStr : String) (p : Payload) :
    goodShape (postTask db now p).1 ∧ goodShape (getTasks db).1 ∧
    goodShape (getTask db idStr).1 ∧ goodShape (putTask db now idStr p).1 ∧
    goodShape (patchStatus db now idStr p).1 ∧ goodShape (deleteTaskRoute db idStr).1 := by
  refine ⟨?_, ?_, ?_, ?_, ?_, ?_⟩
  · by_cases hv : validateTask (sanitize p) = []
    · rcases hc : Database.createTask db now (sanitize p) with e | ⟨data, db'⟩
      · simp only [postTask, hv, if_pos, hc]
        exact goodShape_storage _ _
      · simp only [postTask, hv, if_pos, hc]
        exact goodShape_success rfl rfl rfl
    · simp only [postTask, hv, if_neg]
      exact goodShape_vFail _
  · exact goodShape_success rfl rfl rfl
  · by_cases hi : validateId idStr = true
    · rcases hg : Database.getTaskById db idStr with _ | t
      · simp only [getTask, hi, if_pos, hg]
        exact goodShape_notFound
      · simp only [getTask, hi, if_pos, hg]
        exact goodShape_success rfl rfl rfl
    · simp only [getTask, hi, if_neg]
      exact goodShape_vFail _
  · by_cases hi : validateId idStr = true
    · by_cases hv : validateTaskUpdate (sanitize p) = []
      · by_cases hn : Database.noUpdates (sanitize p) = true
        · simp only [putTask, hi, hv, hn, if_pos, if_neg]
          try simp
          exact goodShape_noFields
        · rcases hc : Database.updateTask db now idStr (sanitize p) with e | ⟨data, db'⟩
          · cases e
            · simp only [putTask, hi, hv, hn, hc]
              try simp [hc]
              exact goodShape_notFound
            · simp only [putTask, hi, hv, hn, hc]
              try simp [hc]
              exact goodShape_storage _ _
            · simp only [putTask, hi, hv, hn, hc]
              try simp [hc]
              exact goodShape_storage _ _
          · simp only [putTask, hi, hv, hn, hc]
            try simp [hc]
            exact goodShape_success rfl rfl rfl
      · simp only [putTask, hi, hv]
        try simp [hv]
        exact goodShape_vFail _
    · simp only [putTask, hi]
      try simp [hi]
      exact goodShape_vFail _
  · by_cases hi : validateId idStr = true
    · rcases hs : p.status with _ | s
      · simp only [patchStatus, hi, hs, if_pos]
        exact goodShape_statusReq
      · by_cases hm : s ∈ statusList
        · rcases hc : Database.updateTaskStatus db now idStr s with e | ⟨data, db'⟩
          · cases e
            · simp only [patchStatus, hi, hs, hm, hc, if_pos]
              try simp [hm, hc]
              exact goodShape_notFound
            · simp only [patchStatus, hi, hs, hm, hc, if_pos]
              try simp [hm, hc]
              exact goodShape_storage _ _
            · simp only [patchStatus, hi, hs, hm, hc, if_pos]
              try simp [hm, hc]
              exact goodShape_storage _ _
          · simp only [patchStatus, hi, hs, hm, hc, if_pos]
            try simp [hm, hc]
            exact goodShape_success rfl rfl rfl
        · simp only [patchStatus, hi, hs, hm, if_pos]
          try simp [hm]
          exact goodShape_statusReq
    · simp only [patchStatus, hi]
      try simp [hi]
      exact goodShape_vFail _
  · by_cases hi : validateId idStr = true
    · rcases hc : Database.deleteTask db idStr with e | db'
      · cases e
        · simp only [deleteTaskRoute, hi, hc, if_pos]
          try simp [hc]
          exact goodShape_notFound
        · simp only [deleteTaskRoute, hi, hc, if_pos]
          try simp [hc]
          exact goodShape_storage _ _
        · simp only [deleteTaskRoute, hi, hc, if_pos]
          try simp [hc]
          exact goodShape_storage _ _
      · simp only [deleteTaskRoute, hi, hc, if_pos]
        try simp [hc]
        exact goodShape_success rfl rfl rfl
    · simp only [deleteTaskRoute, hi]
      try simp [hi]
      exact goodShape_vFail _

/-- C4 counterexample: a client-caused validation failure (a status outside
the four values, sent to the status-only route) is NOT reported with the
`\x7bsuccess: false, error: "Validation failed", details: [...]\x7d` shape:
the route answers with its bespoke body, whose error text differs and which
carries no details array. -/
theorem c4_counterexample :
    patchStatus DB.empty 0 "1" { status := some "bogus" } = (statusRequiredResp, DB.empty) ∧
    statusRequiredResp.success = false ∧
    statusRequiredResp.error ≠ some "Validation failed" ∧
    statusRequiredResp.details = none := by
  exact ⟨rfl, rfl, by decide, rfl⟩


/-- C1 counterexample: the payload with title " A " is valid in create mode
(trimmed length 1), but create followed by get-by-id returns the record with
the TRIMMED title "A", not the input title " A " — the round trip does not
preserve a title with surrounding whitespace. -/
theorem c1_counterexample :
    validateTask (sanitize ⟨some " A ", none, some "pending",
      some "2024-12-31T23:59:59.000Z"⟩) = [] ∧
    (postTask DB.empty 0 ⟨some " A ", none, some "pending",
      some "2024-12-31T23:59:59.000Z"⟩).1.status = 201 ∧
    Database.getTaskById
      (postTask DB.empty 0 ⟨some " A ", none, some "pending",
        some "2024-12-31T23:59:59.000Z"⟩).2 "1" =
      some ⟨1, "A", none, "pending", "2024-12-31T23:59:59.000Z", 0, 0⟩ ∧
    (⟨1, "A", none, "pending", "2024-12-31T23:59:59.000Z", 0, 0⟩ : Task).title ≠ " A " := by
  exact ⟨by decide, rfl, by decide, by decide⟩

/-- C1 (amended): for every payload valid in create mode, create followed by
get-by-id on the returned id yields the stored record whose status and
due_date equal the input, whose description equals the input (stored as the
explicit NULL absence when the key is omitted), and whose title equals the
input title with surrounding whitespace trimmed by the validation chain's
sanitizer (hence equal to the input whenever the input title carries no
surrounding whitespace). -/
theorem c1_create_get_round_trip (db : DB) (now : Nat) (p : Payload) (idStr : String)
    (hval : validateTask (sanitize p) = [])
    (hfresh : ∀ t ∈ db.rows, t.id ≠ db.nextId)
    (hid : parseNat? idStr = some db.nextId)
    (hpos : 1 ≤ db.nextId) :
    ∃ title status due,
      p.title = some title ∧ p.status = some status ∧ p.due_date = some due ∧
      (postTask db now p).1.status = 201 ∧ (postTask db now p).1.success = true ∧
      getTask (postTask db now p).2 idStr =
        ({ status := 200, success := true,
           data := some (taskJson
             ⟨db.nextId, jsTrim title, p.description, status, due, now, now⟩) },
         (postTask db now p).2) := by
  obtain ⟨t', s', d', ht, hs, hd, hsl, hlen1, hlen2, hiso⟩ := create_fields_of_valid hval
  rw [sanitize_status] at hs
  rw [sanitize_due] at hd
  rcases hpt : p.title with _ | title
  · rw [sanitize_title, hpt] at ht; simp at ht
  have hT : (sanitize p).title = some (jsTrim title) := by
    rw [sanitize_title, hpt]; rfl
  refine ⟨title, s', d', rfl, hs, hd, ?_⟩
  have hrow : Database.createTask db now (sanitize p) =
      Except.ok
        (Json.obj [("id", Json.num db.nextId), ("title", Json.str (jsTrim title)),
          ("description", optJson p.description), ("status", Json.str s'),
          ("due_date", Json.str d')],
         ⟨db.rows ++ [⟨db.nextId, jsTrim title, p.description, s', d', now, now⟩],
          db.nextId + 1⟩) := by
    simp only [Database.createTask, hT, hs, hd, sanitize_status, sanitize_description,
      sanitize_due]
    rw [if_pos hsl]
  have hpost : postTask db now p =
      ({ status := 201, success := true,
         data := some (Json.obj [("id", Json.num db.nextId),
           ("title", Json.str (jsTrim title)),
           ("description", optJson p.description), ("status", Json.str s'),
           ("due_date", Json.str d')]),
         message := some "Task created successfully" },
       ⟨db.rows ++ [⟨db.nextId, jsTrim title, p.description, s', d', now, now⟩],
        db.nextId + 1⟩) := by
    simp only [postTask, hval, eq_self_iff_true, if_true, hrow]
  have hvid : validateId idStr = true := by
    simp only [validateId, hid]
    simpa using hpos
  have h1 : ∀ x ∈ db.rows, (fun t => t.id == db.nextId) x = false := by
    intro x hx
    simpa using hfresh x hx
  have hfind : Database.getTaskById
      (⟨db.rows ++ [⟨db.nextId, jsTrim title, p.description, s', d', now, now⟩],
        db.nextId + 1⟩ : DB) idStr =
      some ⟨db.nextId, jsTrim title, p.description, s', d', now, now⟩ := by
    simp only [Database.getTaskById, hid]
    rw [find?_append_right h1, List.find?_cons_of_pos]
    simp
  rw [hpost]
  constructor
  · rfl
  constructor
  · rfl
  simp only [getTask, hvid, eq_self_iff_true, if_true, hfind]

theorem c1_round_trip_witness :
    ∃ title status due,
      (⟨some "Review case documents", none, some "pending",
        some "2024-12-31T23:59:59.000Z"⟩ : Payload).title = some title ∧
      (⟨some "Review case documents", none, some "pending",
        some "2024-12-31T23:59:59.000Z"⟩ : Payload).status = some status ∧
      (⟨some "Review case documents", none, some "pending",
        some "2024-12-31T23:59:59.000Z"⟩ : Payload).due_date = some due ∧
      (postTask DB.empty 7 ⟨some "Review case documents", none, some "pending",
        some "2024-12-31T23:59:59.000Z"⟩).1.status = 201 ∧
      (postTask DB.empty 7 ⟨some "Review case documents", none, some "pending",
        some "2024-12-31T23:59:59.000Z"⟩).1.success = true ∧
      getTask (postTask DB.empty 7 ⟨some "Review case documents", none, some "pending",
        some "2024-12-31T23:59:59.000Z"⟩).2 "1" =
        ({ status := 200, success := true,
           data := some (taskJson
             ⟨DB.empty.nextId, jsTrim title,
              (⟨some "Review case documents", none, some "pending",
                some "2024-12-31T23:59:59.000Z"⟩ : Payload).description, status, due, 7, 7⟩) },
         (postTask DB.empty 7 ⟨some "Review case documents", none, some "pending",
           some "2024-12-31T23:59:59.000Z"⟩).2) :=
  c1_create_get_round_trip DB.empty 7
    ⟨some "Review case documents", none, some "pending", some "2024-12-31T23:59:59.000Z"⟩
    "1" (by decide) (by decide) (by decide) (by decide)


/-- C3: on a positive integer id with no matching record, get-by-id, replace
(with a valid nonempty payload), status-update (with a valid status) and
delete all answer the not-found body — 404, success false, error
"Task not found", no details (so not a validation failure) and no message
(so not a storage failure) — and leave the store untouched (no silent
success, no effect). -/
theorem c3_missing_id_not_found (db : DB) (now : Nat) (idStr : String) (n : Nat) (p : Payload)
    (hid : parseNat? idStr = some n) (hpos : 1 ≤ n)
    (hmiss : ∀ t ∈ db.rows, t.id ≠ n) :
    getTask db idStr = (notFoundResp, db) ∧
    (validateTaskUpdate (sanitize p) = [] → Database.noUpdates (sanitize p) = false →
      putTask db now idStr p = (notFoundResp, db)) ∧
    (∀ s, p.status = some s → s ∈ statusList →
      patchStatus db now idStr p = (notFoundResp, db)) ∧
    deleteTaskRoute db idStr = (notFoundResp, db) ∧
    notFoundResp.status = 404 ∧ notFoundResp.success = false ∧
    notFoundResp.error = some "Task not found" ∧
    notFoundResp.details = none ∧ notFoundResp.message = none := by
  have hvid : validateId idStr = true := by
    simp only [validateId, hid]
    simpa using hpos
  have hany : db.rows.any (fun t => t.id == n) = false := by
    rw [List.any_eq_false]
    intro x hx
    simpa using hmiss x hx
  have hfind : db.rows.find? (fun t => t.id == n) = none := by
    rw [List.find?_eq_none]
    intro x hx
    simpa using hmiss x hx
  refine ⟨?_, ?_, ?_, ?_, rfl, rfl, rfl, rfl, rfl⟩
  · simp only [getTask, hvid, eq_self_iff_true, if_true, Database.getTaskById, hid, hfind]
  · intro hv hn
    have hupd : Database.updateTask db now idStr (sanitize p) =
        Except.error StoreErr.taskMissing := by
      simp [Database.updateTask, hn, hid, hany]
    simp [putTask, hvid, hv, hn, hupd]
  · intro s hsP hsl
    have hupd : Database.updateTaskStatus db now idStr s =
        Except.error StoreErr.taskMissing := by
      simp [Database.updateTaskStatus, hid, hany]
    simp [patchStatus, hvid, hsP, hsl, hupd]
  · have hdel : Database.deleteTask db idStr = Except.error StoreErr.taskMissing := by
      simp [Database.deleteTask, hid, hany]
    simp [deleteTaskRoute, hvid, hdel]

theorem c3_missing_id_witness :
    getTask DB.empty "99999" = (notFoundResp, DB.empty) ∧
    (validateTaskUpdate (sanitize ⟨some "X", none, none, none⟩) = [] →
      Database.noUpdates (sanitize ⟨some "X", none, none, none⟩) = false →
      putTask DB.empty 0 "99999" ⟨some "X", none, none, none⟩ = (notFoundResp, DB.empty)) ∧
    (∀ s, (⟨some "X", none, none, none⟩ : Payload).status = some s → s ∈ statusList →
      patchStatus DB.empty 0 "99999" ⟨some "X", none, none, none⟩ = (notFoundResp, DB.empty)) ∧
    deleteTaskRoute DB.empty "99999" = (notFoundResp, DB.empty) ∧
    notFoundResp.status = 404 ∧ notFoundResp.success = false ∧
    notFoundResp.error = some "Task not found" ∧
    notFoundResp.details = none ∧ notFoundResp.message = none :=
  c3_missing_id_not_found DB.empty 0 "99999" 99999 ⟨some "X", none, none, none⟩
    (by decide) (by decide) (by decide)


/-- C8: a malformed identifier (non-numeric or non-positive) or a failing
body validation is answered with the 400 validation body BEFORE any store
operation: in every such case the returned store state is exactly the prior
state — no partial side effects. -/
theorem c8_validation_before_store (db : DB) (now : Nat) (idStr : String) (p : Payload) :
    (validateId idStr = false →
      getTask db idStr = (vFail [⟨"id", idMsg⟩], db) ∧
      putTask db now idStr p =
        (vFail (⟨"id", idMsg⟩ :: validateTaskUpdate (sanitize p)), db) ∧
      patchStatus db now idStr p = (vFail [⟨"id", idMsg⟩], db) ∧
      deleteTaskRoute db idStr = (vFail [⟨"id", idMsg⟩], db)) ∧
    (validateTask (sanitize p) ≠ [] →
      postTask db now p = (vFail (validateTask (sanitize p)), db)) ∧
    (validateTaskUpdate (sanitize p) ≠ [] →
      (putTask db now idStr p).2 = db ∧
      (putTask db now idStr p).1.error = some "Validation failed" ∧
      (putTask db now idStr p).1.status = 400 ∧
      (putTask db now idStr p).1.success = false ∧
      (putTask db now idStr p).1.details ≠ none) := by
  refine ⟨?_, ?_, ?_⟩
  · intro hi
    refine ⟨?_, ?_, ?_, ?_⟩
    · simp [getTask, hi]
    · simp [putTask, hi]
    · simp [patchStatus, hi]
    · simp [deleteTaskRoute, hi]
  · intro hv
    simp [postTask, hv]
  · intro hv
    rcases hi : validateId idStr with _ | _
    · simp [putTask, hi, hv, vFail]
    · simp [putTask, hi, hv, vFail]


/-- C10: an empty-string description passes create validation (0 characters
is within the at-most-1000 rule) and is persisted as the empty string,
while an absent description key is persisted as NULL; the two stored rows
differ in the description column, and their JSON renderings differ
(empty string versus null), so the cases stay distinguishable on reads. -/
theorem c10_empty_description_distinct (db : DB) (now : Nat) (ti s d : String)
    (hti1 : 1 ≤ (jsTrim ti).length) (hti2 : (jsTrim ti).length ≤ 255)
    (hs : s ∈ statusList) (hd : isISO8601 d = true) :
    validateTask (sanitize ⟨some ti, some "", some s, some d⟩) = [] ∧
    validateTask (sanitize ⟨some ti, none, some s, some d⟩) = [] ∧
    (postTask db now ⟨some ti, some "", some s, some d⟩).1.status = 201 ∧
    (postTask db now ⟨some ti, some "", some s, some d⟩).2.rows =
      db.rows ++ [⟨db.nextId, jsTrim ti, some "", s, d, now, now⟩] ∧
    (postTask db now ⟨some ti, none, some s, some d⟩).2.rows =
      db.rows ++ [⟨db.nextId, jsTrim ti, none, s, d, now, now⟩] ∧
    (some "" : Option String) ≠ none ∧
    optJson (some "") = Json.str "" ∧ optJson none = Json.null := by
  have hv1 : validateTask (sanitize ⟨some ti, some "", some s, some d⟩) = [] := by
    simp [validateTask, sanitize, hti1, hti2, hs, hd]
  have hv2 : validateTask (sanitize ⟨some ti, none, some s, some d⟩) = [] := by
    simp [validateTask, sanitize, hti1, hti2, hs, hd]
  have hc1 : Database.createTask db now (sanitize ⟨some ti, some "", some s, some d⟩) =
      Except.ok
        (Json.obj [("id", Json.num db.nextId), ("title", Json.str (jsTrim ti)),
          ("description", optJson (some "")), ("status", Json.str s),
          ("due_date", Json.str d)],
         ⟨db.rows ++ [⟨db.nextId, jsTrim ti, some "", s, d, now, now⟩],
          db.nextId + 1⟩) := by
    simp only [Database.createTask, sanitize, Option.map_some']
    rw [if_pos hs]
  have hc2 : Database.createTask db now (sanitize ⟨some ti, none, some s, some d⟩) =
      Except.ok
        (Json.obj [("id", Json.num db.nextId), ("title", Json.str (jsTrim ti)),
          ("description", optJson none), ("status", Json.str s),
          ("due_date", Json.str d)],
         ⟨db.rows ++ [⟨db.nextId, jsTrim ti, none, s, d, now, now⟩],
          db.nextId + 1⟩) := by
    simp only [Database.createTask, sanitize, Option.map_some']
    rw [if_pos hs]
  refine ⟨hv1, hv2, ?_, ?_, ?_, by simp, rfl, rfl⟩
  · simp [postTask, hv1, hc1]
  · simp [postTask, hv1, hc1]
  · simp [postTask, hv2, hc2]

theorem c10_empty_description_witness :
    validateTask (sanitize ⟨some "Task Without Description", some "", some "pending",
      some "2024-12-31T23:59:59.000Z"⟩) = [] ∧
    validateTask (sanitize ⟨some "Task Without Description", none, some "pending",
      some "2024-12-31T23:59:59.000Z"⟩) = [] ∧
    (postTask DB.empty 3 ⟨some "Task Without Description", some "", some "pending",
      some "2024-12-31T23:59:59.000Z"⟩).1.status = 201 ∧
    (postTask DB.empty 3 ⟨some "Task Without Description", some "", some "pending",
      some "2024-12-31T23:59:59.000Z"⟩).2.rows =
      DB.empty.rows ++ [⟨DB.empty.nextId, jsTrim "Task Without Description", some "",
        "pending", "2024-12-31T23:59:59.000Z", 3, 3⟩] ∧
    (postTask DB.empty 3 ⟨some "Task Without Description", none, some "pending",
      some "2024-12-31T23:59:59.000Z"⟩).2.rows =
      DB.empty.rows ++ [⟨DB.empty.nextId, jsTrim "Task Without Description", none,
        "pending", "2024-12-31T23:59:59.000Z", 3, 3⟩] ∧
    (some "" : Option String) ≠ none ∧
    optJson (some "") = Json.str "" ∧ optJson none = Json.null :=
  c10_empty_description_distinct DB.empty 3 "Task Without Description" "pending"
    "2024-12-31T23:59:59.000Z" (by decide) (by decide) (by decide) (by decide)


/-- C2: replacing an existing task applies exactly the recognized fields
present in the payload (the title as sanitized by the trim chain), leaves
every absent field and every other row unchanged, keeps id and created_at,
refreshes updated_at; a payload with zero recognized fields is rejected with
the distinct no-fields 400 body (error text differing from "Validation
failed", no details) and the store is not mutated. -/
theorem c2_replace_frame (db : DB) (now : Nat) (idStr : String) (n : Nat)
    (p : Payload) (t : Task)
    (hid : parseNat? idStr = some n) (hpos : 1 ≤ n)
    (hval : validateTaskUpdate (sanitize p) = [])
    (ht : t ∈ db.rows) (htid : t.id = n) :
    (Database.noUpdates (sanitize p) = true →
      putTask db now idStr p = (noFieldsResp, db) ∧
      noFieldsResp.error = some "No valid fields provided for update" ∧
      noFieldsResp.error ≠ some "Validation failed" ∧ noFieldsResp.details = none ∧
      noFieldsResp.status = 400) ∧
    (Database.noUpdates (sanitize p) = false →
      (putTask db now idStr p).1.status = 200 ∧
      (putTask db now idStr p).1.success = true ∧
      (putTask db now idStr p).2.nextId = db.nextId ∧
      (putTask db now idStr p).2.rows =
        db.rows.map (fun u =>
          if u.id = n then Database.applyUpdates (sanitize p) now u else u) ∧
      (∀ u ∈ db.rows, u.id ≠ n → u ∈ (putTask db now idStr p).2.rows) ∧
      Database.applyUpdates (sanitize p) now t ∈ (putTask db now idStr p).2.rows ∧
      (Database.applyUpdates (sanitize p) now t).id = t.id ∧
      (Database.applyUpdates (sanitize p) now t).created_at = t.created_at ∧
      (Database.applyUpdates (sanitize p) now t).updated_at = now ∧
      (p.title = none → (Database.applyUpdates (sanitize p) now t).title = t.title) ∧
      (p.description = none →
        (Database.applyUpdates (sanitize p) now t).description = t.description) ∧
      (p.status = none → (Database.applyUpdates (sanitize p) now t).status = t.status) ∧
      (p.due_date = none →
        (Database.applyUpdates (sanitize p) now t).due_date = t.due_date) ∧
      (∀ v, p.title = some v →
        (Database.applyUpdates (sanitize p) now t).title = jsTrim v) ∧
      (∀ v, p.description = some v →
        (Database.applyUpdates (sanitize p) now t).description = some v) ∧
      (∀ v, p.status = some v → (Database.applyUpdates (sanitize p) now t).status = v) ∧
      (∀ v, p.due_date = some v →
        (Database.applyUpdates (sanitize p) now t).due_date = v)) := by
  have hvid : validateId idStr = true := by
    simp only [validateId, hid]
    simpa using hpos
  constructor
  · intro hn
    refine ⟨?_, rfl, by decide, rfl, rfl⟩
    simp [putTask, hvid, hval, hn]
  · intro hn
    have hany : db.rows.any (fun u => u.id == n) = true := by
      rw [List.any_eq_true]
      exact ⟨t, ht, by simp [htid]⟩
    have hstat : (match p.status with
        | none => true
        | some s => decide (s ∈ statusList)) = true := by
      rcases hsp : p.status with _ | s
      · rfl
      · simpa using update_status_of_valid hval s (by rw [sanitize_status, hsp])
    have hupd : Database.updateTask db now idStr (sanitize p) =
        Except.ok
          (Json.obj (("id", Json.str idStr) :: Database.updatesJson (sanitize p) ++
            [("updated", Json.bool true)]),
           ⟨db.rows.map (fun u =>
              if u.id = n then Database.applyUpdates (sanitize p) now u else u),
            db.nextId⟩) := by
      simp [Database.updateTask, hn, hid, hany, hstat]
    have hput : putTask db now idStr p =
        ({ status := 200, success := true,
           data := some (Json.obj (("id", Json.str idStr) ::
             Database.updatesJson (sanitize p) ++ [("updated", Json.bool true)])),
           message := some "Task updated successfully" },
         ⟨db.rows.map (fun u =>
            if u.id = n then Database.applyUpdates (sanitize p) now u else u),
          db.nextId⟩) := by
      simp [putTask, hvid, hval, hn, hupd]
    rw [hput]
    refine ⟨rfl, rfl, rfl, rfl, ?_, ?_, ?_, ?_, ?_, ?_, ?_, ?_, ?_, ?_, ?_, ?_, ?_⟩
    · intro u hu hne
      exact List.mem_map.mpr ⟨u, hu, by simp [hne]⟩
    · exact List.mem_map.mpr ⟨t, ht, by simp [htid]⟩
    · rfl
    · rfl
    · rfl
    · intro h
      simp [Database.applyUpdates, h]
    · intro h
      simp [Database.applyUpdates, h]
    · intro h
      simp [Database.applyUpdates, h]
    · intro h
      simp [Database.applyUpdates, h]
    · intro v h
      simp [Database.applyUpdates, h]
    · intro v h
      simp [Database.applyUpdates, h]
    · intro v h
      simp [Database.applyUpdates, h]
    · intro v h
      simp [Database.applyUpdates, h]

theorem c2_replace_frame_witness :
    (putTask ⟨[⟨1, "Original", none, "pending", "2024-12-31", 5, 5⟩], 2⟩ 9 "1"
      ⟨some "Updated", none, some "in_progress", none⟩).2.rows =
      [⟨1, "Updated", none, "in_progress", "2024-12-31", 5, 9⟩] ∧
    putTask ⟨[⟨1, "Original", none, "pending", "2024-12-31", 5, 5⟩], 2⟩ 9 "1"
      ⟨none, none, none, none⟩ =
      (noFieldsResp, ⟨[⟨1, "Original", none, "pending", "2024-12-31", 5, 5⟩], 2⟩) := by
  constructor
  · rw [(((c2_replace_frame ⟨[⟨1, "Original", none, "pending", "2024-12-31", 5, 5⟩], 2⟩ 9
      "1" 1 ⟨some "Updated", none, some "in_progress", none⟩
      ⟨1, "Original", none, "pending", "2024-12-31", 5, 5⟩
      (by decide) (by decide) (by decide) (by decide) (by decide)).2 (by decide)).2.2.2.1)]
    decide
  · exact ((c2_replace_frame ⟨[⟨1, "Original", none, "pending", "2024-12-31", 5, 5⟩], 2⟩ 9
      "1" 1 ⟨none, none, none, none⟩
      ⟨1, "Original", none, "pending", "2024-12-31", 5, 5⟩
      (by decide) (by decide) (by decide) (by decide) (by decide)).1 (by decide)).1


/-- C5 counterexample: after creating task 1, a successful status update
persists the full row, but the data field of the success envelope is only
`\x7bid, status, updated\x7d` (with the id as the raw path string) — not the
persisted record. -/
theorem c5_counterexample :
    (patchStatus (postTask DB.empty 0 ⟨some "T", none, some "pending",
        some "2024-12-31"⟩).2 7 "1" ⟨none, none, some "completed", none⟩).2.rows =
      [⟨1, "T", none, "completed", "2024-12-31", 0, 7⟩] ∧
    (patchStatus (postTask DB.empty 0 ⟨some "T", none, some "pending",
        some "2024-12-31"⟩).2 7 "1" ⟨none, none, some "completed", none⟩).1.success = true ∧
    (patchStatus (postTask DB.empty 0 ⟨some "T", none, some "pending",
        some "2024-12-31"⟩).2 7 "1" ⟨none, none, some "completed", none⟩).1.data =
      some (Json.obj [("id", Json.str "1"), ("status", Json.str "completed"),
        ("updated", Json.bool true)]) ∧
    (patchStatus (postTask DB.empty 0 ⟨some "T", none, some "pending",
        some "2024-12-31"⟩).2 7 "1" ⟨none, none, some "completed", none⟩).1.data ≠
      some (taskJson ⟨1, "T", none, "completed", "2024-12-31", 0, 7⟩) := by
  refine ⟨by decide, rfl, rfl, ?_⟩
  intro h
  have h2 := congrArg (fun o => Option.map Json.keys o) h
  exact absurd h2 (by decide)

/-- C5 (amended): the data of each success envelope is a fixed projection,
not the persisted record: for create it is the assigned id plus the four
insert fields (title as sanitized) without the stored timestamps; for
update-status it is the raw path id string, the new status and an updated
flag; for replace it is the raw path id string, the supplied fields and an
updated flag. -/
theorem c5_success_data (db : DB) (now : Nat) (idStr : String) (n : Nat) (p : Payload)
    (hid : parseNat? idStr = some n) (hpos : 1 ≤ n)
    (hex : db.rows.any (fun u => u.id == n) = true) :
    (validateTask (sanitize p) = [] →
      ∀ ti st du, p.title = some ti → p.status = some st → p.due_date = some du →
      (postTask db now p).1.data =
        some (Json.obj [("id", Json.num db.nextId), ("title", Json.str (jsTrim ti)),
          ("description", optJson p.description), ("status", Json.str st),
          ("due_date", Json.str du)])) ∧
    (∀ s, p.status = some s → s ∈ statusList →
      (patchStatus db now idStr p).1.data =
        some (Json.obj [("id", Json.str idStr), ("status", Json.str s),
          ("updated", Json.bool true)])) ∧
    (validateTaskUpdate (sanitize p) = [] → Database.noUpdates (sanitize p) = false →
      (putTask db now idStr p).1.data =
        some (Json.obj (("id", Json.str idStr) :: Database.updatesJson (sanitize p) ++
          [("updated", Json.bool true)]))) := by
  have hvid : validateId idStr = true := by
    simp only [validateId, hid]
    simpa using hpos
  refine ⟨?_, ?_, ?_⟩
  · intro hval ti st du hti hst hdu
    obtain ⟨t', s', d', ht', hs', hd', hsl, _, _, _⟩ := create_fields_of_valid hval
    rw [sanitize_status, hst] at hs'
    rw [sanitize_due, hdu] at hd'
    cases hs'
    cases hd'
    have hT : (sanitize p).title = some (jsTrim ti) := by
      rw [sanitize_title, hti]; rfl
    have hrow : Database.createTask db now (sanitize p) =
        Except.ok
          (Json.obj [("id", Json.num db.nextId), ("title", Json.str (jsTrim ti)),
            ("description", optJson p.description), ("status", Json.str st),
            ("due_date", Json.str du)],
           ⟨db.rows ++ [⟨db.nextId, jsTrim ti, p.description, st, du, now, now⟩],
            db.nextId + 1⟩) := by
      simp only [Database.createTask, hT, sanitize_status, sanitize_description,
        sanitize_due, hst, hdu]
      rw [if_pos hsl]
    simp [postTask, hval, hrow]
  · intro s hs hsl
    have hupd : Database.updateTaskStatus db now idStr s =
        Except.ok
          (Json.obj [("id", Json.str idStr), ("status", Json.str s),
            ("updated", Json.bool true)],
           ⟨db.rows.map (fun u =>
              if u.id = n then { u with status := s, updated_at := now } else u),
            db.nextId⟩) := by
      simp [Database.updateTaskStatus, hid, hex, hsl]
    simp [patchStatus, hvid, hs, hsl, hupd]
  · intro hval hn
    have hstat : (match p.status with
        | none => true
        | some s => decide (s ∈ statusList)) = true := by
      rcases hsp : p.status with _ | s
      · rfl
      · simpa using update_status_of_valid hval s (by rw [sanitize_status, hsp])
    have hupd : Database.updateTask db now idStr (sanitize p) =
        Except.ok
          (Json.obj (("id", Json.str idStr) :: Database.updatesJson (sanitize p) ++
            [("updated", Json.bool true)]),
           ⟨db.rows.map (fun u =>
              if u.id = n then Database.applyUpdates (sanitize p) now u else u),
            db.nextId⟩) := by
      simp [Database.updateTask, hn, hid, hex, hstat]
    simp [putTask, hvid, hval, hn, hupd]

theorem c5_success_data_witness :
    (postTask ⟨[⟨1, "T", none, "pending", "2024-12-31", 0, 0⟩], 2⟩ 4
      ⟨some "U", none, some "completed", some "2025-01-01"⟩).1.data =
      some (Json.obj [("id", Json.num 2), ("title", Json.str "U"),
        ("description", Json.null), ("status", Json.str "completed"),
        ("due_date", Json.str "2025-01-01")]) ∧
    (patchStatus ⟨[⟨1, "T", none, "pending", "2024-12-31", 0, 0⟩], 2⟩ 4 "1"
      ⟨some "U", none, some "completed", some "2025-01-01"⟩).1.data =
      some (Json.obj [("id", Json.str "1"), ("status", Json.str "completed"),
        ("updated", Json.bool true)]) ∧
    (putTask ⟨[⟨1, "T", none, "pending", "2024-12-31", 0, 0⟩], 2⟩ 4 "1"
      ⟨some "U", none, some "completed", some "2025-01-01"⟩).1.data =
      some (Json.obj [("id", Json.str "1"), ("title", Json.str "U"),
        ("status", Json.str "completed"), ("due_date", Json.str "2025-01-01"),
        ("updated", Json.bool true)]) := by
  refine ⟨?_, ?_, ?_⟩
  · exact (c5_success_data ⟨[⟨1, "T", none, "pending", "2024-12-31", 0, 0⟩], 2⟩ 4 "1" 1
      ⟨some "U", none, some "completed", some "2025-01-01"⟩
      (by decide) (by decide) (by decide)).1 (by decide) "U" "completed" "2025-01-01"
      rfl rfl rfl
  · exact (c5_success_data ⟨[⟨1, "T", none, "pending", "2024-12-31", 0, 0⟩], 2⟩ 4 "1" 1
      ⟨some "U", none, some "completed", some "2025-01-01"⟩
      (by decide) (by decide) (by decide)).2.1 "completed" rfl (by decide)
  · exact (c5_success_data ⟨[⟨1, "T", none, "pending", "2024-12-31", 0, 0⟩], 2⟩ 4 "1" 1
      ⟨some "U", none, some "completed", some "2025-01-01"⟩
      (by decide) (by decide) (by decide)).2.2 (by decide) (by decide)


lemma createTask_ok {db : DB} {now : Nat} {t : Payload} {j : Json} {db' : DB}
    (h : Database.createTask db now t = Except.ok (j, db')) :
    ∃ ti st du, t.title = some ti ∧ t.status = some st ∧ t.due_date = some du ∧
      st ∈ statusList ∧
      db' = ⟨db.rows ++ [⟨db.nextId, ti, t.description, st, du, now, now⟩],
        db.nextId + 1⟩ := by
  rcases hti : t.title with _ | ti <;>
    rcases hst : t.status with _ | st <;>
    rcases hdu : t.due_date with _ | du <;>
    simp [Database.createTask, hti, hst, hdu] at h
  by_cases hsl : st ∈ statusList
  · rw [if_pos hsl] at h
    simp only [Except.ok.injEq, Prod.mk.injEq] at h
    exact ⟨ti, st, du, rfl, rfl, rfl, hsl, h.2.symm⟩
  · rw [if_neg hsl] at h
    simp at h

lemma updateTask_ok {db : DB} {now : Nat} {idStr : String} {u : Payload} {j : Json}
    {db' : DB} (h : Database.updateTask db now idStr u = Except.ok (j, db')) :
    ∃ n, parseNat? idStr = some n ∧
      (∀ s, u.status = some s → s ∈ statusList) ∧
      db' = ⟨db.rows.map (fun r =>
        if r.id = n then Database.applyUpdates u now r else r), db.nextId⟩ := by
  by_cases hn : Database.noUpdates u = true
  · simp [Database.updateTask, hn] at h
  rcases hp : parseNat? idStr with _ | n
  · simp [Database.updateTask, hn, hp] at h
  by_cases ha : db.rows.any (fun r => r.id == n) = true
  · by_cases hst : (match u.status with
        | none => true
        | some s => decide (s ∈ statusList)) = true
    · simp [Database.updateTask, hn, hp, ha, hst] at h
      refine ⟨n, rfl, ?_, by simp [← h.2]⟩
      intro s hs
      rw [hs] at hst
      simpa using hst
    · simp [Database.updateTask, hn, hp, ha, hst] at h
  · simp [Database.updateTask, hn, hp, ha] at h

lemma updateTaskStatus_ok {db : DB} {now : Nat} {idStr st : String} {j : Json}
    {db' : DB} (h : Database.updateTaskStatus db now idStr st = Except.ok (j, db')) :
    ∃ n, parseNat? idStr = some n ∧ st ∈ statusList ∧
      db' = ⟨db.rows.map (fun r =>
        if r.id = n then { r with status := st, updated_at := now } else r),
        db.nextId⟩ := by
  rcases hp : parseNat? idStr with _ | n
  · simp [Database.updateTaskStatus, hp] at h
  by_cases ha : db.rows.any (fun r => r.id == n) = true
  · by_cases hsl : st ∈ statusList
    · simp [Database.updateTaskStatus, hp, ha, hsl] at h
      exact ⟨n, rfl, hsl, by simp [← h.2]⟩
    · simp [Database.updateTaskStatus, hp, ha, hsl] at h
  · simp [Database.updateTaskStatus, hp, ha] at h

lemma deleteTask_ok {db : DB} {idStr : String} {db' : DB}
    (h : Database.deleteTask db idStr = Except.ok db') :
    ∃ n, db' = ⟨db.rows.filter (fun r => ¬ r.id = n), db.nextId⟩ := by
  rcases hp : parseNat? idStr with _ | n
  · simp [Database.deleteTask, hp] at h
  by_cases ha : db.rows.any (fun r => r.id == n) = true
  · have heq : Database.deleteTask db idStr =
        Except.ok (⟨db.rows.filter (fun r => ¬ r.id = n), db.nextId⟩ : DB) := by
      simp [Database.deleteTask, hp, ha]
    rw [heq] at h
    injection h with h2
    exact ⟨n, h2.symm⟩
  · simp [Database.deleteTask, hp, ha] at h

lemma postTask_snd (db : DB) (now : Nat) (p : Payload) :
    (postTask db now p).2 = db ∨
    ∃ j, Database.createTask db now (sanitize p) = Except.ok (j, (postTask db now p).2) := by
  by_cases hv : validateTask (sanitize p) = []
  · rcases hc : Database.createTask db now (sanitize p) with e | ⟨data, db'⟩
    · left; simp [postTask, hv, hc]
    · right
      refine ⟨data, ?_⟩
      have hsnd : (postTask db now p).2 = db' := by simp [postTask, hv, hc]
      rw [hsnd]
      try exact hc
  · left; simp [postTask, hv]

lemma putTask_snd (db : DB) (now : Nat) (idStr : String) (p : Payload) :
    (putTask db now idStr p).2 = db ∨
    ∃ j, Database.updateTask db now idStr (sanitize p) =
      Except.ok (j, (putTask db now idStr p).2) := by
  by_cases hi : validateId idStr = true
  · by_cases hv : validateTaskUpdate (sanitize p) = []
    · by_cases hn : Database.noUpdates (sanitize p) = true
      · left; simp [putTask, hi, hv, hn]
      · rcases hc : Database.updateTask db now idStr (sanitize p) with e | ⟨data, db'⟩
        · cases e <;> · left; simp [putTask, hi, hv, hn, hc]
        · right
          refine ⟨data, ?_⟩
          have hsnd : (putTask db now idStr p).2 = db' := by
            simp [putTask, hi, hv, hn, hc]
          rw [hsnd]
          try exact hc
    · left; simp [putTask, hi, hv]
  · left; simp [putTask, hi]

lemma patchStatus_snd (db : DB) (now : Nat) (idStr : String) (p : Payload) :
    (patchStatus db now idStr p).2 = db ∨
    ∃ s j, p.status = some s ∧ Database.updateTaskStatus db now idStr s =
      Except.ok (j, (patchStatus db now idStr p).2) := by
  by_cases hi : validateId idStr = true
  · rcases hs : p.status with _ | s
    · left; simp [patchStatus, hi, hs]
    · by_cases hsl : s ∈ statusList
      · rcases hc : Database.updateTaskStatus db now idStr s with e | ⟨data, db'⟩
        · cases e <;> · left; simp [patchStatus, hi, hs, hsl, hc]
        · right
          refine ⟨s, data, rfl, ?_⟩
          have hsnd : (patchStatus db now idStr p).2 = db' := by
            simp [patchStatus, hi, hs, hsl, hc]
          rw [hsnd]
          try exact hc
      · left; simp [patchStatus, hi, hs, hsl]
  · left; simp [patchStatus, hi]

lemma deleteTaskRoute_snd (db : DB) (idStr : String) :
    (deleteTaskRoute db idStr).2 = db ∨
    Database.deleteTask db idStr = Except.ok (deleteTaskRoute db idStr).2 := by
  by_cases hi : validateId idStr = true
  · rcases hc : Database.deleteTask db idStr with e | db'
    · cases e <;> · left; simp [deleteTaskRoute, hi, hc]
    · right
      have hsnd : (deleteTaskRoute db idStr).2 = db' := by
        simp [deleteTaskRoute, hi, hc]
      rw [hsnd]
      try exact hc
  · left; simp [deleteTaskRoute, hi]

lemma getTask_snd (db : DB) (idStr : String) : (getTask db idStr).2 = db := by
  unfold getTask
  split
  · rcases Database.getTaskById db idStr with _ | t <;> rfl
  · rfl


lemma map_ids_of_preserve {f : Task → Task} (hf : ∀ r, (f r).id = r.id) :
    ∀ rows : List Task, (rows.map f).map Task.id = rows.map Task.id := by
  intro rows
  induction rows with
  | nil => rfl
  | cons x xs ih => simp [hf x, ih]

lemma inv_unchanged {a b : DB} (heq : b = a) (hinv : Inv a) :
    Inv b ∧ a.nextId ≤ b.nextId ∧
    ∀ i, i < a.nextId → i ∉ a.rows.map Task.id → i ∉ b.rows.map Task.id := by
  subst heq
  exact ⟨hinv, le_refl _, fun i _ hi => hi⟩

lemma step_preserves {a b : DB} (h : Step a b) (hinv : Inv a) :
    Inv b ∧ a.nextId ≤ b.nextId ∧
    ∀ i, i < a.nextId → i ∉ a.rows.map Task.id → i ∉ b.rows.map Task.id := by
  obtain ⟨hpos, hnodup, hrows⟩ := hinv
  cases h with
  | post now p =>
      rcases postTask_snd a now p with heq | ⟨j, hok⟩
      · exact inv_unchanged heq ⟨hpos, hnodup, hrows⟩
      · obtain ⟨ti, st, du, _, _, _, hsl, hdb⟩ := createTask_ok hok
        rw [hdb]
        refine ⟨⟨le_trans hpos (Nat.le_succ _), ?_, ?_⟩, Nat.le_succ _, ?_⟩
        · rw [List.map_append]
          refine List.Nodup.append hnodup (List.nodup_singleton _) ?_
          intro x hx hx2
          simp only [List.map_cons, List.map_nil, List.mem_singleton] at hx2
          rcases List.mem_map.mp hx with ⟨t, htm, hti⟩
          have h3 := (hrows t htm).2.2
          omega
        · intro t htm
          rcases List.mem_append.mp htm with hold | hnew
          · obtain ⟨h1, h2, h3⟩ := hrows t hold
            exact ⟨h1, h2, lt_trans h3 (Nat.lt_succ_self _)⟩
          · simp only [List.mem_singleton] at hnew
            subst hnew
            exact ⟨hsl, hpos, Nat.lt_succ_self _⟩
        · intro i hi hni
          rw [List.map_append]
          intro hmem
          rcases List.mem_append.mp hmem with h1 | h2
          · exact hni h1
          · simp only [List.map_cons, List.map_nil, List.mem_singleton] at h2
            omega
  | put now idStr p =>
      rcases putTask_snd a now idStr p with heq | ⟨j, hok⟩
      · exact inv_unchanged heq ⟨hpos, hnodup, hrows⟩
      · obtain ⟨n, hp, hstatok, hdb⟩ := updateTask_ok hok
        rw [hdb]
        have hids : ((a.rows.map (fun r =>
            if r.id = n then Database.applyUpdates (sanitize p) now r else r)).map Task.id) =
            a.rows.map Task.id := by
          apply map_ids_of_preserve
          intro r
          by_cases hr : r.id = n <;> simp [hr, Database.applyUpdates]
        refine ⟨⟨hpos, ?_, ?_⟩, le_refl _, ?_⟩
        · rw [hids]
          exact hnodup
        · intro t htm
          rcases List.mem_map.mp htm with ⟨r, hrm, hrt⟩
          obtain ⟨h1, h2, h3⟩ := hrows r hrm
          by_cases hr : r.id = n
          · rw [if_pos hr] at hrt
            subst hrt
            refine ⟨?_, by simpa [Database.applyUpdates] using h2,
              by simpa [Database.applyUpdates] using h3⟩
            rcases hsp : p.status with _ | s
            · simpa [Database.applyUpdates, hsp] using h1
            · have hsm := hstatok s (by rw [sanitize_status, hsp])
              simpa [Database.applyUpdates, hsp] using hsm
          · rw [if_neg hr] at hrt
            subst hrt
            exact ⟨h1, h2, h3⟩
        · intro i hi hni
          rw [hids]
          exact hni
  | patch now idStr p =>
      rcases patchStatus_snd a now idStr p with heq | ⟨s, j, hs, hok⟩
      · exact inv_unchanged heq ⟨hpos, hnodup, hrows⟩
      · obtain ⟨n, hp, hsl, hdb⟩ := updateTaskStatus_ok hok
        rw [hdb]
        have hids : ((a.rows.map (fun r =>
            if r.id = n then { r with status := s, updated_at := now } else r)).map Task.id) =
            a.rows.map Task.id := by
          apply map_ids_of_preserve
          intro r
          by_cases hr : r.id = n <;> simp [hr]
        refine ⟨⟨hpos, ?_, ?_⟩, le_refl _, ?_⟩
        · rw [hids]
          exact hnodup
        · intro t htm
          rcases List.mem_map.mp htm with ⟨r, hrm, hrt⟩
          obtain ⟨h1, h2, h3⟩ := hrows r hrm
          by_cases hr : r.id = n
          · rw [if_pos hr] at hrt
            subst hrt
            exact ⟨hsl, h2, h3⟩
          · rw [if_neg hr] at hrt
            subst hrt
            exact ⟨h1, h2, h3⟩
        · intro i hi hni
          rw [hids]
          exact hni
  | del idStr =>
      rcases deleteTaskRoute_snd a idStr with heq | hok
      · exact inv_unchanged heq ⟨hpos, hnodup, hrows⟩
      · obtain ⟨n, hdb⟩ := deleteTask_ok hok
        rw [hdb]
        refine ⟨⟨hpos, ?_, ?_⟩, le_refl _, ?_⟩
        · exact List.Nodup.sublist (List.Sublist.map _ (List.filter_sublist _)) hnodup
        · intro t htm
          exact hrows t (List.mem_of_mem_filter htm)
        · intro i hi hni hmem
          rcases List.mem_map.mp hmem with ⟨r, hrm, hri⟩
          exact hni (List.mem_map.mpr ⟨r, List.mem_of_mem_filter hrm, hri⟩)
  | getOne idStr =>
      exact inv_unchanged (getTask_snd a idStr) ⟨hpos, hnodup, hrows⟩
  | getAll =>
      exact inv_unchanged rfl ⟨hpos, hnodup, hrows⟩

lemma steps_preserves {a b : DB} (h : Steps a b) (hinv : Inv a) :
    Inv b ∧ a.nextId ≤ b.nextId ∧
    ∀ i, i < a.nextId → i ∉ a.rows.map Task.id → i ∉ b.rows.map Task.id := by
  induction h with
  | refl => exact ⟨hinv, le_refl _, fun i _ hi => hi⟩
  | tail hab hbc ih =>
      obtain ⟨hinvb, hle, hrev⟩ := ih
      obtain ⟨hinvc, hle2, hrev2⟩ := step_preserves hbc hinvb
      exact ⟨hinvc, le_trans hle hle2, fun i hi hni =>
        hrev2 i (lt_of_lt_of_le hi hle) (hrev i hi hni)⟩

lemma inv_empty : Inv DB.empty := by
  refine ⟨le_refl 1, List.nodup_nil, ?_⟩
  intro t ht
  simp [DB.empty] at ht

lemma reach_inv {db : DB} (h : Reach db) : Inv db :=
  (steps_preserves h inv_empty).1


/-- C7: in every store state reachable through the API from the fresh store,
every persisted row's status is one of the four enumerated values; a payload
carrying any other status value is rejected by the routes before the store
is touched (400, state unchanged) on create, replace and status-update; and
the store itself enforces the domain as a hard constraint: createTask
rejects it with the CHECK-constraint error, and neither updateTask nor
updateTaskStatus can succeed with it. -/
theorem c7_status_domain (db : DB) (hr : Reach db) :
    (∀ t ∈ db.rows, t.status ∈ statusList) ∧
    (∀ (db₀ : DB) (now : Nat) (idStr : String) (p : Payload) (s : String),
      p.status = some s → s ∉ statusList →
      (postTask db₀ now p).2 = db₀ ∧ (postTask db₀ now p).1.status = 400 ∧
      (putTask db₀ now idStr p).2 = db₀ ∧ (putTask db₀ now idStr p).1.status = 400 ∧
      (patchStatus db₀ now idStr p).2 = db₀ ∧
      (patchStatus db₀ now idStr p).1.status = 400) ∧
    (∀ (db₀ : DB) (now : Nat) (p : Payload) (s : String),
      p.status = some s → s ∉ statusList →
      Database.createTask db₀ now p = Except.error StoreErr.constraintViolation) ∧
    (∀ (db₀ : DB) (now : Nat) (idStr s : String), s ∉ statusList →
      ∀ (j : Json) (db' : DB),
        Database.updateTaskStatus db₀ now idStr s ≠ Except.ok (j, db')) ∧
    (∀ (db₀ : DB) (now : Nat) (idStr : String) (u : Payload) (s : String),
      u.status = some s → s ∉ statusList →
      ∀ (j : Json) (db' : DB),
        Database.updateTask db₀ now idStr u ≠ Except.ok (j, db')) := by
  obtain ⟨hpos, hnodup, hrows⟩ := reach_inv hr
  refine ⟨fun t ht => (hrows t ht).1, ?_, ?_, ?_, ?_⟩
  · intro db₀ now idStr p s hs hmem
    have hvc : validateTask (sanitize p) ≠ [] :=
      validateTask_ne_of_bad_status (by rw [sanitize_status, hs]) hmem
    have hvu : validateTaskUpdate (sanitize p) ≠ [] :=
      validateTaskUpdate_ne_of_bad_status (by rw [sanitize_status, hs]) hmem
    refine ⟨?_, ?_, ?_, ?_, ?_, ?_⟩
    · simp [postTask, hvc]
    · simp [postTask, hvc, vFail]
    · rcases hi : validateId idStr with _ | _ <;> simp [putTask, hi, hvu]
    · rcases hi : validateId idStr with _ | _ <;> simp [putTask, hi, hvu, vFail]
    · rcases hi : validateId idStr with _ | _ <;>
        simp [patchStatus, hi, hs, hmem, statusRequiredResp, vFail]
    · rcases hi : validateId idStr with _ | _ <;>
        simp [patchStatus, hi, hs, hmem, statusRequiredResp, vFail]
  · intro db₀ now p s hs hmem
    rcases hti : p.title with _ | ti <;>
      rcases hdu : p.due_date with _ | du <;>
      simp [Database.createTask, hti, hs, hdu, hmem]
  · intro db₀ now idStr s hmem j db' h
    obtain ⟨n, hp2, hsl, hdb⟩ := updateTaskStatus_ok h
    exact absurd hsl (by simpa using hmem)
  · intro db₀ now idStr u s hs hmem j db' h
    obtain ⟨n, hp2, hstatok, hdb⟩ := updateTask_ok h
    exact absurd (hstatok s hs) (by simpa using hmem)

theorem c7_status_domain_witness :
    (∀ t ∈ DB.empty.rows, t.status ∈ statusList) ∧
    (∀ (db₀ : DB) (now : Nat) (idStr : String) (p : Payload) (s : String),
      p.status = some s → s ∉ statusList →
      (postTask db₀ now p).2 = db₀ ∧ (postTask db₀ now p).1.status = 400 ∧
      (putTask db₀ now idStr p).2 = db₀ ∧ (putTask db₀ now idStr p).1.status = 400 ∧
      (patchStatus db₀ now idStr p).2 = db₀ ∧
      (patchStatus db₀ now idStr p).1.status = 400) ∧
    (∀ (db₀ : DB) (now : Nat) (p : Payload) (s : String),
      p.status = some s → s ∉ statusList →
      Database.createTask db₀ now p = Except.error StoreErr.constraintViolation) ∧
    (∀ (db₀ : DB) (now : Nat) (idStr s : String), s ∉ statusList →
      ∀ (j : Json) (db' : DB),
        Database.updateTaskStatus db₀ now idStr s ≠ Except.ok (j, db')) ∧
    (∀ (db₀ : DB) (now : Nat) (idStr : String) (u : Payload) (s : String),
      u.status = some s → s ∉ statusList →
      ∀ (j : Json) (db' : DB),
        Database.updateTask db₀ now idStr u ≠ Except.ok (j, db')) :=
  c7_status_domain DB.empty (Steps.refl DB.empty)

/-- C9: in every reachable store state the row ids are pairwise distinct and
lie in 1..nextId-1; a successful create assigns exactly the AUTOINCREMENT
counter — an id strictly greater than every id ever assigned before — and
bumps the counter; and along any further request sequence the counter never
decreases, so an id absent from the current rows but below the counter (an
id freed by delete) never reappears: ids are never reused. -/
theorem c9_ids_unique_never_reused (db : DB) (hr : Reach db) :
    (db.rows.map Task.id).Nodup ∧
    (∀ t ∈ db.rows, 1 ≤ t.id ∧ t.id < db.nextId) ∧
    (∀ (now : Nat) (p : Payload) (j : Json) (db' : DB),
      Database.createTask db now (sanitize p) = Except.ok (j, db') →
      db'.nextId = db.nextId + 1 ∧
      db'.rows.map Task.id = db.rows.map Task.id ++ [db.nextId] ∧
      db.nextId ∉ db.rows.map Task.id) ∧
    (∀ db', Steps db db' →
      db.nextId ≤ db'.nextId ∧
      ∀ i, i < db.nextId → i ∉ db.rows.map Task.id → i ∉ db'.rows.map Task.id) := by
  obtain ⟨hpos, hnodup, hrows⟩ := reach_inv hr
  refine ⟨hnodup, fun t ht => ⟨(hrows t ht).2.1, (hrows t ht).2.2⟩, ?_, ?_⟩
  · intro now p j db' h
    obtain ⟨ti, st, du, _, _, _, hsl, hdb⟩ := createTask_ok h
    subst hdb
    refine ⟨rfl, by simp, ?_⟩
    intro hmem
    rcases List.mem_map.mp hmem with ⟨t, htm, hti⟩
    have h3 := (hrows t htm).2.2
    omega
  · intro db' hsteps
    have hp := steps_preserves hsteps ⟨hpos, hnodup, hrows⟩
    exact ⟨hp.2.1, hp.2.2⟩

theorem c9_ids_witness :
    ((DB.empty.rows.map Task.id).Nodup) ∧
    (∀ t ∈ DB.empty.rows, 1 ≤ t.id ∧ t.id < DB.empty.nextId) ∧
    (∀ (now : Nat) (p : Payload) (j : Json) (db' : DB),
      Database.createTask DB.empty now (sanitize p) = Except.ok (j, db') →
      db'.nextId = DB.empty.nextId + 1 ∧
      db'.rows.map Task.id = DB.empty.rows.map Task.id ++ [DB.empty.nextId] ∧
      DB.empty.nextId ∉ DB.empty.rows.map Task.id) ∧
    (∀ db', Steps DB.empty db' →
      DB.empty.nextId ≤ db'.nextId ∧
      ∀ i, i < DB.empty.nextId → i ∉ DB.empty.rows.map Task.id →
        i ∉ db'.rows.map Task.id) :=
  c9_ids_unique_never_reused DB.empty (Steps.refl DB.empty)


end TaskManager
